import Mathlib

/-!
# Verification of the TCGP-TeamRocket-Tool core

Shallow embedding, translated from the repository sources, of:

* the write-batching layer `MainWindow.process_db_write_queue`
  (`src/core/ui_main_window.py`) over the ledger tables `found_cards` and
  `account_inventory` (`src/core/database.py`, `TABLES_SCHEMA`);
* `DatabaseManager.set_inventory_quantity` (`src/core/database.py`);
* trade ingestion in `TradeMonitorClient` (`src/core/discord_client.py`):
  the insert-or-ignore `trades` writes of the historical scan, batch
  processing and live monitoring, and the startup recovery pass;
* the recognition pipeline: `detect_layout` (`src/core/detect_layout.py`),
  `hamming_distance` (`src/Alpha_v1.48/trash/image_processing.py`; the
  `core.color_hash` module it also lives in is not part of the snapshot) and
  `CardRecognizer._find_best_match` / `recognize_from_image`
  (`src/core/card_recognizer.py`).

SQLite specifics encoded here: the `IGNORE` conflict-resolution algorithm
skips a row exactly when the insert would violate a uniqueness or NOT NULL
constraint of the target table; Python's `with sqlite3.connect(...)`
context manager commits the transaction on success and rolls it back when
the block raises.
-/

namespace TCGP

/-! ## Ledger data model (`database.py`, `TABLES_SCHEMA`) -/

/-- A row of the `found_cards` table. `id` is the AUTOINCREMENT primary
key — the table's *only* uniqueness constraint; `card_id` is declared
`NOT NULL`; `account_id`, `message_id` and `source_image_path` are
nullable. (`channel_id`, `user_id` and `found_at` are never written by the
batch writer and are omitted.) -/
structure FoundRow where
  id : Nat
  cardId : Option Int
  accountId : Option Int
  messageId : Option String
  confidence : ℚ
  sourceImagePath : Option String
deriving DecidableEq

/-- An item of `MainWindow.db_write_queue`:
`(card_id, account_id, message_id, confidence, source_image_path)`. -/
structure Event where
  cardId : Option Int
  accountId : Option Int
  messageId : Option String
  confidence : ℚ
  sourceImagePath : Option String
deriving DecidableEq

/-- Python truthiness of an optional integer column value: `None` and `0`
are falsy, every other integer is truthy. -/
def truthy : Option Int → Bool
  | none => false
  | some v => v != 0

/-- The rowid AUTOINCREMENT assigns to the next inserted row: strictly
larger than every id already in the table. -/
def freshId (t : List FoundRow) : Nat :=
  (t.map FoundRow.id).foldl max 0 + 1

/-- `INSERT OR IGNORE INTO found_cards (card_id, account_id, message_id,
confidence_score, source_image_path) VALUES (?, ?, ?, ?, ?)`.
The primary key `id` is freshly assigned by AUTOINCREMENT, so it can never
conflict; the only constraint that can fire is `card_id NOT NULL`, and with
`OR IGNORE` a violating row is silently skipped. -/
def insertOrIgnoreFoundCard (t : List FoundRow) (e : Event) : List FoundRow :=
  match e.cardId with
  | none => t
  | some _ =>
    t ++ [⟨freshId t, e.cardId, e.accountId, e.messageId, e.confidence,
           e.sourceImagePath⟩]

/-- A row of `account_inventory`; the table declares
`UNIQUE (account_id, card_id)`. -/
structure InvRow where
  accountId : Int
  cardId : Int
  quantity : Int
deriving DecidableEq

/-- Does a row belong to the `(account_id, card_id)` unique key? -/
def invMatches (a c : Int) (r : InvRow) : Bool :=
  r.accountId == a && r.cardId == c

/-- `INSERT INTO account_inventory (account_id, card_id, quantity)
VALUES (?, ?, 1) ON CONFLICT(account_id, card_id) DO UPDATE SET
quantity = quantity + 1`. -/
def upsertIncrement (inv : List InvRow) (a c : Int) : List InvRow :=
  if inv.any (invMatches a c) then
    inv.map fun r =>
      if invMatches a c r then { r with quantity := r.quantity + 1 } else r
  else
    inv ++ [⟨a, c, 1⟩]

/-- The ledger state touched by the batch writer. -/
structure LedgerState where
  foundCards : List FoundRow
  inventory : List InvRow
deriving DecidableEq

/-- One iteration of the flush loop of `process_db_write_queue`: first the
`found_cards` log insert, then — only when both ids are Python-truthy
(`if account_id and card_id:`) — the inventory upsert-increment. -/
def applyEvent (st : LedgerState) (e : Event) : LedgerState :=
  let fc := insertOrIgnoreFoundCard st.foundCards e
  if truthy e.accountId && truthy e.cardId then
    { foundCards := fc,
      inventory := upsertIncrement st.inventory (e.accountId.getD 0) (e.cardId.getD 0) }
  else
    { foundCards := fc, inventory := st.inventory }

/-- `MainWindow.process_db_write_queue`: drain the whole queue, apply every
drained event inside one transaction (committed on success, rolled back on
an exception by the `with sqlite3.connect(...)` block), and on failure
re-enqueue every drained item in drain order. `txOk` is the transaction's
outcome. -/
def process_db_write_queue (st : LedgerState) (queue : List Event)
    (txOk : Bool) : LedgerState × List Event :=
  if queue.isEmpty then (st, [])
  else if txOk then (queue.foldl applyEvent st, [])
  else (st, queue)

/-- `DatabaseManager.set_inventory_quantity`: `None` ids are rejected
(returns `False`); `new_quantity <= 0` deletes the `(account_id, card_id)`
row; otherwise `INSERT ... ON CONFLICT(account_id, card_id) DO UPDATE SET
quantity = excluded.quantity` overwrites the stored quantity. -/
def set_inventory_quantity (inv : List InvRow) (accountId cardId : Option Int)
    (newQuantity : Int) : List InvRow × Bool :=
  match accountId, cardId with
  | some a, some c =>
    if newQuantity ≤ 0 then
      (inv.filter fun r => !invMatches a c r, true)
    else if inv.any (invMatches a c) then
      (inv.map fun r =>
        if invMatches a c r then { r with quantity := newQuantity } else r, true)
    else
      (inv ++ [⟨a, c, newQuantity⟩], true)
  | _, _ => (inv, false)

/-- Stored quantity of the `(account_id, card_id)` row, when present. -/
def getQty (inv : List InvRow) (a c : Int) : Option Int :=
  (inv.find? (invMatches a c)).map InvRow.quantity

/-- Number of `found_cards` rows carrying a given
`(card_id, account_id, message_id)` tuple. -/
def countTuple (t : List FoundRow) (c a : Option Int) (m : Option String) : Nat :=
  (t.filter fun r => r.cardId == c && r.accountId == a && r.messageId == m).length

/-! ## Trade ingestion (`discord_client.py`) -/

/-- A row of the `trades` table, column for column
(`TABLES_SCHEMA['trades']`); `message_id TEXT PRIMARY KEY` is the only
constraint. The thumbnail BLOB is modelled as an optional string of bytes;
`processed_at` carries the `DEFAULT CURRENT_TIMESTAMP` value. -/
structure TradeRow where
  messageId : String
  accountId : Option Int
  accountName : Option String
  xmlPath : Option String
  imageUrl : Option String
  screenshotThumbnailBlob : Option String
  messageLink : Option String
  cardsFoundText : Option String
  processedAt : String
  scanStatus : Int
  scanResultsJson : Option String
deriving DecidableEq

/-- Is a `message_id` already present in the `trades` table? -/
def hasMessageId (tbl : List TradeRow) (mid : String) : Bool :=
  tbl.any fun r => r.messageId == mid

/-- `INSERT OR IGNORE INTO trades (...)`: the one constraint of the table
is the primary key `message_id`, so the row is skipped exactly when its id
is already present. -/
def insertOrIgnoreTrade (tbl : List TradeRow) (r : TradeRow) : List TradeRow :=
  if hasMessageId tbl r.messageId then tbl else tbl ++ [r]

/-- The part of a Discord message the ingestion paths inspect, after
`extract_trade_data_fast` and the in-memory attachment handling have run:
the numeric message id, the raw text content (checked against
`SEARCH_STRING`), and the column values the trade insert receives. -/
structure Msg where
  id : Nat
  content : String
  accountId : Option Int
  accountName : Option String
  xmlPath : Option String
  imageUrl : Option String
  screenshotThumbnailBlob : Option String
  messageLink : Option String
  cardsFoundText : Option String

/-- `config.SEARCH_STRING`, the required content marker. -/
def SEARCH_STRING : String := "Tradeable cards"

/-- Python's `pat in s` substring test. -/
def strContains (s pat : String) : Bool :=
  (List.range (s.length + 1)).any fun i =>
    (s.toList.drop i).take pat.length == pat.toList

/-- The Pending trade row inserted for a message
(`scan_status = 0`, `scan_results_json` not supplied). -/
def mkPendingRow (m : Msg) (processedAt : String) : TradeRow :=
  { messageId := toString m.id
    accountId := m.accountId
    accountName := m.accountName
    xmlPath := m.xmlPath
    imageUrl := m.imageUrl
    screenshotThumbnailBlob := m.screenshotThumbnailBlob
    messageLink := m.messageLink
    cardsFoundText := m.cardsFoundText
    processedAt := processedAt
    scanStatus := 0
    scanResultsJson := none }

/-- The `trades` effect of `perform_historical_scan_streaming`: for each
message of the history page that contains `SEARCH_STRING`, one
`INSERT OR IGNORE INTO trades ... scan_status = 0`, committed per message. -/
def perform_historical_scan (tbl : List TradeRow) (msgs : List Msg)
    (now : String) : List TradeRow :=
  msgs.foldl
    (fun t m =>
      if strContains m.content SEARCH_STRING then
        insertOrIgnoreTrade t (mkPendingRow m now)
      else t)
    tbl

/-- The `trades` effect of `process_message_batch_fast`: messages failing
the content filter or whose id is already present (the `SELECT 1 FROM
trades WHERE message_id = ?` duplicate check, run against the table as it
is when the batch starts) are skipped; the survivors are collected into
`trades_to_insert` and written by one
`executemany("INSERT OR IGNORE INTO trades ...")`. -/
def process_message_batch_fast (tbl : List TradeRow) (msgs : List Msg)
    (now : String) : List TradeRow :=
  let toInsert :=
    (msgs.filter fun m =>
        strContains m.content SEARCH_STRING &&
          !hasMessageId tbl (toString m.id)).map (mkPendingRow · now)
  toInsert.foldl insertOrIgnoreTrade tbl

/-- Live monitoring: `on_message` forwards a matching message to
`process_message_batch_fast([message])`. -/
def on_message (tbl : List TradeRow) (m : Msg) (now : String) : List TradeRow :=
  if strContains m.content SEARCH_STRING then
    process_message_batch_fast tbl [m] now
  else tbl

/-- No two rows of the `trades` table share a `message_id`. -/
def NodupIds (tbl : List TradeRow) : Prop :=
  (tbl.map TradeRow.messageId).Nodup

/-! ## Startup recovery (`on_ready` / `recover_missing_cards`) -/

/-- A SQLite column value as seen through a `sqlite3.Row` dict. -/
inductive DBVal
  | null
  | int (i : Int)
  | text (s : String)
deriving DecidableEq

/-- An optional text column value. -/
def optText : Option String → DBVal
  | none => .null
  | some s => .text s

/-- An optional integer column value. -/
def optInt : Option Int → DBVal
  | none => .null
  | some i => .int i

/-- `dict(row)` for a `SELECT * FROM trades` row: its keys are exactly the
column names of `TABLES_SCHEMA['trades']`, in schema order. -/
def tradeRowDict (r : TradeRow) : List (String × DBVal) :=
  [("message_id", .text r.messageId),
   ("account_id", optInt r.accountId),
   ("account_name", optText r.accountName),
   ("xml_path", optText r.xmlPath),
   ("image_url", optText r.imageUrl),
   ("screenshot_thumbnail_blob", optText r.screenshotThumbnailBlob),
   ("message_link", optText r.messageLink),
   ("cards_found_text", optText r.cardsFoundText),
   ("processed_at", .text r.processedAt),
   ("scan_status", .int r.scanStatus),
   ("scan_results_json", optText r.scanResultsJson)]

/-- Python `dict.get`: `None` when the key is absent. -/
def dictGet (d : List (String × DBVal)) (k : String) : Option DBVal :=
  (d.find? fun p => p.1 == k).map Prod.snd

/-- One iteration of `recover_missing_cards` for a selected trade row:
`image_path = trade_data.get('image_path')`; a falsy or non-existent path
is counted as an error and the row is skipped (`continue`), leaving it
untouched; otherwise `scan_image_for_cards(trade_data)` is called without
its second required positional argument `image_bytes`, which raises
`TypeError`, is caught by the surrounding `except`, and also leaves the row
untouched. Returns the row together with whether it was re-processed. -/
def recoverTradeStep (fileExists : String → Bool) (r : TradeRow) :
    TradeRow × Bool :=
  match dictGet (tradeRowDict r) "image_path" with
  | some (.text p) => if p != "" && fileExists p then (r, false) else (r, false)
  | _ => (r, false)

/-- The `trades` table after the recovery pass of `on_ready` against a
non-empty ledger: the rows returned by `SELECT * FROM trades WHERE
scan_status = 0 OR scan_status = 2` are fed to `recover_missing_cards`;
each selected row is replaced by the outcome of its recovery step, other
rows are untouched. -/
def recoverPendingFailed (fileExists : String → Bool) (db : List TradeRow) :
    List TradeRow :=
  db.map fun r =>
    if r.scanStatus == 0 || r.scanStatus == 2 then
      (recoverTradeStep fileExists r).1
    else r

/-! ## Layout detection (`detect_layout.py`) -/

/-- A BGR channel triple of a decoded cv2 pixel. -/
abbrev Pix := Nat × Nat × Nat

/-- A decoded image: rows of pixels, as a cv2 array. -/
abbrev Img := List (List Pix)

/-- A crop rectangle `(x1, y1, x2, y2)`. -/
abbrev Box := Nat × Nat × Nat × Nat

/-- `TARGET_GRAY_BGR = (242, 232, 222)`. -/
def TARGET_GRAY_BGR : Pix := (242, 232, 222)

/-- `COLOR_TOLERANCE = 3`. -/
def COLOR_TOLERANCE : ℚ := 3

/-- `TOP_ROW_CHECK_BOX = (119, 27, 123, 40)`. -/
def TOP_ROW_CHECK_BOX : Box := (119, 27, 123, 40)

/-- `BOTTOM_ROW_CHECK_BOX = (119, 134, 123, 147)`. -/
def BOTTOM_ROW_CHECK_BOX : Box := (119, 134, 123, 147)

/-- The pixels of `img[y1:y2, x1:x2]` (numpy slicing clamps to the image
bounds, so a region outside the image is simply empty). -/
def roiPixels (img : Img) (b : Box) : List Pix :=
  match b with
  | (x1, y1, x2, y2) =>
    (((img.drop y1).take (y2 - y1)).map fun row => (row.drop x1).take (x2 - x1)).flatten

/-- `np.mean(roi, axis=(0, 1))`, one mean per BGR channel; the mean over an
empty slice is numpy's NaN, modelled as `none`. -/
def meanColor (ps : List Pix) : Option (ℚ × ℚ × ℚ) :=
  if ps.isEmpty then none
  else
    let n : ℚ := ps.length
    some ((ps.map fun p => ((p.1 : ℚ))).sum / n,
          (ps.map fun p => ((p.2.1 : ℚ))).sum / n,
          (ps.map fun p => ((p.2.2 : ℚ))).sum / n)

/-- `is_color_in_range(avg_color, target_color, tolerance)`: each of the
three channels must satisfy `target - tolerance <= avg <= target + tolerance`.
A NaN mean (empty region) makes every comparison `False`. -/
def is_color_in_range (avg : Option (ℚ × ℚ × ℚ)) (target : Pix) (tol : ℚ) : Bool :=
  match avg with
  | none => false
  | some (b, g, r) =>
    decide ((target.1 : ℚ) - tol ≤ b ∧ b ≤ (target.1 : ℚ) + tol) &&
    decide ((target.2.1 : ℚ) - tol ≤ g ∧ g ≤ (target.2.1 : ℚ) + tol) &&
    decide ((target.2.2 : ℚ) - tol ≤ r ∧ r ≤ (target.2.2 : ℚ) + tol)

/-- `_get_layout_logic`: each row contributes 2 cards when its indicator
region averages to the background gray, otherwise 3. -/
def _get_layout_logic (img : Img) : Nat :=
  let topIsGray :=
    is_color_in_range (meanColor (roiPixels img TOP_ROW_CHECK_BOX))
      TARGET_GRAY_BGR COLOR_TOLERANCE
  let cardsInTopRow := if topIsGray then 2 else 3
  let bottomIsGray :=
    is_color_in_range (meanColor (roiPixels img BOTTOM_ROW_CHECK_BOX))
      TARGET_GRAY_BGR COLOR_TOLERANCE
  let cardsInBottomRow := if bottomIsGray then 2 else 3
  cardsInTopRow + cardsInBottomRow

/-- `get_layout_from_image(pil_image)`: the input is `some img` when the
PIL image converts to a pixel array, `none` when the conversion raises
(e.g. a truncated file) — the `except` clause then returns `None`. -/
def get_layout_from_image : Option Img → Option Nat
  | none => none
  | some img => some (_get_layout_logic img)

/-! ## Fingerprint matching
(`hamming_distance` from `Alpha_v1.48/trash/image_processing.py`,
`CardRecognizer._find_best_match` from `card_recognizer.py`) -/

/-- `hamming_distance(hash1, hash2)`: on a length mismatch the code
comments "Return max distance" and returns `len(hash1)`; otherwise the
number of mismatching positions. -/
def hamming_distance (hash1 hash2 : List Char) : Nat :=
  if hash1.length ≠ hash2.length then hash1.length
  else ((hash1.zip hash2).filter fun p => p.1 != p.2).length

/-- A template corpus entry as loaded by `_load_templates`
(rows with a null or empty `color_hash` are filtered out at load time). -/
structure Template where
  cardId : Int
  cardName : String
  cardNumber : String
  setCode : String
  localImagePath : Option String
  hash : List Char
deriving DecidableEq

/-- Python's `round(q, 2)`. -/
def round2 (q : ℚ) : ℚ := ((round (q * 100) : ℤ) : ℚ) / 100

/-- `CardRecognizer._find_best_match(source_hash)`: scan the corpus keeping
the strictly best similarity (`similarity > max_similarity`, so the
first-seen candidate wins ties), starting from `max_similarity = -1.0`;
the stored similarity is `round(similarity, 2)`.
The subsequent DB-enrichment step of the source only adds metadata keys to
the returned dict and never changes the matched card or its similarity. -/
def _find_best_match (templates : List Template) (sourceHash : List Char) :
    Option (Template × ℚ) :=
  (templates.foldl
    (fun acc t =>
      let distance := hamming_distance sourceHash t.hash
      let maxDistance := t.hash.length
      let similarity : ℚ := 100 - ((distance : ℚ) / (maxDistance : ℚ)) * 100
      if acc.2 < similarity then (some (t, round2 similarity), similarity)
      else acc)
    ((none : Option (Template × ℚ)), (-1 : ℚ))).1

/-! ## Screenshot recognition (`CardRecognizer.recognize_from_image`) -/

/-- `LAYOUT_CROP_BOXES`, the fixed per-layout slot tables. -/
def LAYOUT_CROP_BOXES : Nat → Option (List Box)
  | 4 => some [(46, 16, 108, 53), (132, 17, 194, 54),
               (46, 131, 108, 168), (131, 133, 193, 170)]
  | 5 => some [(5, 16, 69, 54), (87, 16, 151, 54), (170, 16, 234, 54),
               (46, 133, 108, 170), (130, 132, 193, 170)]
  | 6 => some [(5, 16, 69, 54), (87, 16, 151, 54), (170, 16, 234, 54),
               (5, 133, 69, 171), (87, 133, 151, 171), (170, 133, 234, 171)]
  | _ => none

/-- One accepted slot of `recognize_from_image`'s result list (the source
dict also copies DB metadata fields of the matched card, omitted here). -/
structure RecognitionResult where
  position : Nat
  cardId : Int
  cardName : String
  setCode : String
  similarity : ℚ
  layout : Nat
deriving DecidableEq

/-- The per-slot loop of `recognize_from_image` over
`enumerate(crop_boxes, start=1)`. `hashOf img box` models
`calculate_color_hash(source_img.crop(box))`: `none` stands for a `None`
return or for a crop/hash exception, which the per-slot `except` turns into
`continue`; `if not card_hash: continue` also skips an empty hash string.
An accepted slot must satisfy `similarity >= self.similarity_threshold`. -/
def recognizeSlots (templates : List Template) (threshold : ℚ)
    (hashOf : Img → Box → Option (List Char)) (img : Img) (layout : Nat) :
    List (Nat × Box) → List RecognitionResult
  | [] => []
  | (position, box) :: rest =>
    let tail := recognizeSlots templates threshold hashOf img layout rest
    match hashOf img box with
    | none => tail
    | some h =>
      if h.isEmpty then tail
      else
        match _find_best_match templates h with
        | none => tail
        | some (t, similarity) =>
          if threshold ≤ similarity then
            { position := position, cardId := t.cardId, cardName := t.cardName,
              setCode := t.setCode, similarity := similarity,
              layout := layout } :: tail
          else tail

/-- `CardRecognizer.recognize_from_image`: run `get_layout_from_image`; if
the detected layout is not a key of `LAYOUT_CROP_BOXES`, raise
`ValueError("Could not determine valid layout. ...")` (modelled as
`Except.error`); otherwise process each crop box in slot order. -/
def recognize_from_image (templates : List Template) (threshold : ℚ)
    (hashOf : Img → Box → Option (List Char)) (sourceImg : Option Img) :
    Except String (List RecognitionResult) :=
  match sourceImg with
  | none => .error "Could not determine valid layout"
  | some img =>
    let layout := _get_layout_logic img
    match LAYOUT_CROP_BOXES layout with
    | none => .error "Could not determine valid layout"
    | some cropBoxes =>
      .ok (recognizeSlots templates threshold hashOf img layout
            (cropBoxes.enumFrom 1))

/-! ## Helper lemmas: the write batcher -/

theorem applyEvent_foundCards (st : LedgerState) (e : Event) :
    (applyEvent st e).foundCards = insertOrIgnoreFoundCard st.foundCards e := by
  unfold applyEvent
  split <;> rfl

theorem truthy_some {v : Int} (h : v ≠ 0) : truthy (some v) = true := by
  simp [truthy, h]

theorem applyEvent_of_truthy (st : LedgerState) (e : Event) (a c : Int)
    (ha : e.accountId = some a) (hc : e.cardId = some c)
    (ha0 : a ≠ 0) (hc0 : c ≠ 0) :
    applyEvent st e =
      { foundCards := insertOrIgnoreFoundCard st.foundCards e,
        inventory := upsertIncrement st.inventory a c } := by
  unfold applyEvent
  rw [ha, hc, truthy_some ha0, truthy_some hc0]
  rfl

theorem upsertIncrement_absent (inv : List InvRow) (a c : Int)
    (h : inv.any (invMatches a c) = false) :
    upsertIncrement inv a c = inv ++ [⟨a, c, 1⟩] := by
  unfold upsertIncrement
  rw [h]
  rfl

theorem invMatches_self (a c k : Int) : invMatches a c ⟨a, c, k⟩ = true := by
  simp [invMatches]

theorem upsertIncrement_single (a c k : Int) :
    upsertIncrement [⟨a, c, k⟩] a c = [⟨a, c, k + 1⟩] := by
  simp [upsertIncrement, invMatches_self]

theorem foldl_replicate_applyEvent (e : Event) (a c : Int)
    (ha : e.accountId = some a) (hc : e.cardId = some c)
    (ha0 : a ≠ 0) (hc0 : c ≠ 0) :
    ∀ (n : ℕ) (fc : List FoundRow) (k : Int),
      ((List.replicate n e).foldl applyEvent ⟨fc, [⟨a, c, k⟩]⟩).inventory
        = [⟨a, c, k + n⟩] := by
  intro n
  induction n with
  | zero => intro fc k; simp
  | succ n ih =>
    intro fc k
    rw [List.replicate_succ, List.foldl_cons,
        applyEvent_of_truthy _ e a c ha hc ha0 hc0, upsertIncrement_single]
    have hk : k + ((n + 1 : ℕ) : ℤ) = (k + 1) + (n : ℤ) := by omega
    rw [hk]
    exact ih _ (k + 1)

theorem invMatches_quantity (a c x : Int) (r : InvRow) :
    invMatches a c { r with quantity := x } = invMatches a c r := rfl

theorem getQty_map_quantityUpdate (a c : Int) (g : Int → Int) :
    ∀ (inv : List InvRow) (q : Int), getQty inv a c = some q →
      getQty (inv.map fun r =>
          if invMatches a c r then { r with quantity := g r.quantity } else r)
        a c = some (g q) := by
  intro inv
  induction inv with
  | nil => intro q h; simp [getQty] at h
  | cons r rs ih =>
    intro q h
    cases hp : invMatches a c r with
    | true =>
      rw [getQty, List.find?_cons_of_pos _ hp] at h
      simp only [Option.map_some', Option.some.injEq] at h
      rw [List.map_cons, if_pos hp, getQty,
          List.find?_cons_of_pos _ (by rw [invMatches_quantity]; exact hp)]
      simp [h]
    | false =>
      rw [getQty, List.find?_cons_of_neg _ (by simp [hp])] at h
      rw [List.map_cons, if_neg (by simp [hp]), getQty,
          List.find?_cons_of_neg _ (by simp [hp])]
      exact ih q h

theorem any_of_getQty (inv : List InvRow) (a c q : Int)
    (h : getQty inv a c = some q) : inv.any (invMatches a c) = true := by
  unfold getQty at h
  cases hf : inv.find? (invMatches a c) with
  | none => rw [hf] at h; simp at h
  | some r =>
    rw [List.any_eq_true]
    exact ⟨r, List.mem_of_find?_eq_some hf, List.find?_some hf⟩

theorem flush_foundCards_length :
    ∀ (q : List Event) (st : LedgerState),
      ((q.foldl applyEvent st).foundCards).length =
        st.foundCards.length + (q.filter fun e => e.cardId != none).length := by
  intro q
  induction q with
  | nil => intro st; simp
  | cons e rest ih =>
    intro st
    rw [List.foldl_cons, ih]
    cases hc : e.cardId with
    | none =>
      have hf : (applyEvent st e).foundCards = st.foundCards := by
        rw [applyEvent_foundCards]
        unfold insertOrIgnoreFoundCard
        rw [hc]
      rw [hf, List.filter_cons]
      simp [hc]
    | some v =>
      have hf : (applyEvent st e).foundCards.length = st.foundCards.length + 1 := by
        rw [applyEvent_foundCards]
        unfold insertOrIgnoreFoundCard
        rw [hc]
        simp
      rw [hf, List.filter_cons]
      simp [hc]
      omega

/-! ## Claims about the write batcher and the inventory -/

/-- The duplicated event used against claim C2. -/
def evDup : Event := ⟨some 1, some 1, some "m1", 1, none⟩

/-- C2 fails on the code: `found_cards` declares no uniqueness constraint
over `(card_id, account_id, message_id)` — its only key is the
AUTOINCREMENT `id` — so the `INSERT OR IGNORE` never ignores anything and
flushing the same event tuple twice logs two rows. -/
theorem c2_counterexample :
    countTuple ((process_db_write_queue ⟨[], []⟩ [evDup, evDup] true).1.foundCards)
      (some 1) (some 1) (some "m1") = 2 := by
  decide

/-- C2 amended: a successful flush appends exactly one `found_cards` row
per drained event with a non-NULL card id — repeated tuples included;
the ignore-on-conflict clause never collapses duplicates because the table
has no unique key over the event tuple. -/
theorem c2_amended (st : LedgerState) (q : List Event) :
    ((process_db_write_queue st q true).1.foundCards).length =
      st.foundCards.length + (q.filter fun e => e.cardId != none).length := by
  unfold process_db_write_queue
  cases hq : q with
  | nil => simp
  | cons e rest =>
    simp only [List.isEmpty_cons, Bool.false_eq_true, if_false, if_true]
    exact flush_foundCards_length (e :: rest) st

/-- C3: the flush applies all drained events in one transaction; when the
transaction fails, the ledger state is unchanged and every drained event is
re-enqueued in drain order, so none is lost. -/
theorem c3 (st : LedgerState) (q : List Event) (hq : q ≠ []) :
    process_db_write_queue st q false = (st, q) ∧
    (∀ e ∈ q, e ∈ (process_db_write_queue st q false).2) ∧
    (process_db_write_queue st q true).1 = q.foldl applyEvent st := by
  have hempty : q.isEmpty = false := by
    cases q with
    | nil => exact absurd rfl hq
    | cons e rest => rfl
  unfold process_db_write_queue
  rw [hempty]
  exact ⟨rfl, fun e he => by simpa using he, rfl⟩

/-- Concrete event for the C3 witness. -/
def evtC3 : Event := ⟨some 2, some 3, some "mc3", 1, some "p"⟩

theorem c3_witness :
    process_db_write_queue ⟨[], []⟩ [evtC3] false = (⟨[], []⟩, [evtC3]) :=
  (c3 ⟨[], []⟩ [evtC3] (by decide)).1

/-- C4: for a drained event with truthy account and card ids, the flush
upsert inserts a `(account, card)` row with quantity 1 when absent,
increments the stored quantity by exactly 1 when present, and therefore
`n ≥ 1` copies of one event flushed in a single window collapse into the
single inventory row `(account, card, n)`. -/
theorem c4 (st : LedgerState) (e : Event) (a c : Int)
    (ha : e.accountId = some a) (hc : e.cardId = some c)
    (ha0 : a ≠ 0) (hc0 : c ≠ 0) :
    (st.inventory.any (invMatches a c) = false →
        (applyEvent st e).inventory = st.inventory ++ [⟨a, c, 1⟩]) ∧
    (∀ q, getQty st.inventory a c = some q →
        getQty (applyEvent st e).inventory a c = some (q + 1)) ∧
    (∀ n : ℕ, 1 ≤ n →
        (process_db_write_queue ⟨st.foundCards, []⟩ (List.replicate n e) true).1.inventory
          = [⟨a, c, (n : ℤ)⟩]) := by
  refine ⟨?_, ?_, ?_⟩
  · intro habs
    rw [applyEvent_of_truthy st e a c ha hc ha0 hc0]
    exact upsertIncrement_absent st.inventory a c habs
  · intro q hq
    rw [applyEvent_of_truthy st e a c ha hc ha0 hc0]
    show getQty (upsertIncrement st.inventory a c) a c = some (q + 1)
    unfold upsertIncrement
    rw [any_of_getQty st.inventory a c q hq]
    simpa using getQty_map_quantityUpdate a c (fun x => x + 1) st.inventory q hq
  · intro n hn
    obtain ⟨m, rfl⟩ : ∃ m, n = m + 1 := ⟨n - 1, by omega⟩
    have hne : (List.replicate (m + 1) e).isEmpty = false := by
      rw [List.replicate_succ]
      rfl
    unfold process_db_write_queue
    rw [hne]
    simp only [Bool.false_eq_true, if_false, if_true]
    rw [List.replicate_succ, List.foldl_cons,
        applyEvent_of_truthy _ e a c ha hc ha0 hc0,
        upsertIncrement_absent _ a c (by rfl)]
    show ((List.replicate m e).foldl applyEvent ⟨_, [⟨a, c, 1⟩]⟩).inventory = _
    have hk : ((m + 1 : ℕ) : ℤ) = 1 + (m : ℤ) := by omega
    rw [foldl_replicate_applyEvent e a c ha hc ha0 hc0 m _ 1, hk]

/-- Concrete event for the C4 witness: card 5 found for account 9. -/
def e4 : Event := ⟨some 5, some 9, some "m4", 1, none⟩

theorem c4_witness :
    (applyEvent ⟨[], []⟩ e4).inventory = [⟨9, 5, 1⟩] ∧
    (process_db_write_queue ⟨[], []⟩ (List.replicate 100 e4) true).1.inventory
      = [⟨9, 5, ((100 : ℕ) : ℤ)⟩] :=
  ⟨by
    have h := (c4 ⟨[], []⟩ e4 9 5 rfl rfl (by decide) (by decide)).1 (by rfl)
    simpa using h,
   (c4 ⟨[], []⟩ e4 9 5 rfl rfl (by decide) (by decide)).2.2 100 (by norm_num)⟩

/-- The event with a NULL card id used against claim C10. -/
def evNullCard : Event := ⟨none, some 3, some "m10", 1, none⟩

/-- C10 fails on the code as stated: an event whose card id is NULL
violates `card_id NOT NULL`, so the `INSERT OR IGNORE` skips its
`found_cards` row entirely — nothing is logged for it. -/
theorem c10_counterexample :
    (process_db_write_queue ⟨[], []⟩ [evNullCard] true).1.foundCards = [] := by
  decide

/-- C10 amended: an event with a falsy account id or card id performs no
inventory upsert (the inventory is unchanged); its `found_cards` log row is
inserted exactly when its card id is not NULL — an event with a NULL card
id is skipped by the ignore-on-conflict insert and logs nothing. -/
theorem c10_amended (st : LedgerState) (e : Event)
    (h : (truthy e.accountId && truthy e.cardId) = false) :
    (applyEvent st e).inventory = st.inventory ∧
    (e.cardId = none → (applyEvent st e).foundCards = st.foundCards) ∧
    (∀ v, e.cardId = some v →
        (applyEvent st e).foundCards = st.foundCards ++
          [⟨freshId st.foundCards, e.cardId, e.accountId, e.messageId,
            e.confidence, e.sourceImagePath⟩]) := by
  refine ⟨?_, ?_, ?_⟩
  · unfold applyEvent
    rw [h]
    rfl
  · intro hc
    unfold applyEvent insertOrIgnoreFoundCard
    rw [h, hc]
    simp
  · intro v hc
    unfold applyEvent insertOrIgnoreFoundCard
    rw [h, hc]
    simp

theorem c10_witness :
    (applyEvent ⟨[], []⟩ evNullCard).inventory = [] ∧
    (applyEvent ⟨[], []⟩ evNullCard).foundCards = [] :=
  ⟨(c10_amended ⟨[], []⟩ evNullCard (by decide)).1,
   (c10_amended ⟨[], []⟩ evNullCard (by decide)).2.1 rfl⟩

/-- C9: `set_inventory_quantity` with a target quantity `≤ 0` deletes the
`(account, card)` row (afterwards no row matches, the other rows are
exactly preserved); with a positive quantity it creates the row with
exactly that quantity when absent, and overwrites — not adds to — the
stored quantity when present. -/
theorem c9 (inv : List InvRow) (a c newQ : Int) :
    (newQ ≤ 0 →
        (set_inventory_quantity inv (some a) (some c) newQ).1 =
          inv.filter (fun r => !invMatches a c r) ∧
        ((set_inventory_quantity inv (some a) (some c) newQ).1.any
            (invMatches a c)) = false) ∧
    (0 < newQ → inv.any (invMatches a c) = false →
        (set_inventory_quantity inv (some a) (some c) newQ).1 =
          inv ++ [⟨a, c, newQ⟩]) ∧
    (0 < newQ → ∀ q, getQty inv a c = some q →
        getQty (set_inventory_quantity inv (some a) (some c) newQ).1 a c
          = some newQ) := by
  refine ⟨?_, ?_, ?_⟩
  · intro hle
    simp only [set_inventory_quantity]
    rw [if_pos hle]
    refine ⟨rfl, ?_⟩
    rw [List.any_eq_false]
    intro r hr
    have := (List.mem_filter.mp hr).2
    simp only [Bool.not_eq_true'] at this
    simp [this]
  · intro hpos habs
    simp only [set_inventory_quantity]
    rw [if_neg (by omega), habs]
    rfl
  · intro hpos q hq
    simp only [set_inventory_quantity]
    rw [if_neg (by omega), any_of_getQty inv a c q hq]
    simpa using getQty_map_quantityUpdate a c (fun _ => newQ) inv q hq

/-! ## Helper lemmas: trade ingestion -/

theorem not_mem_map_of_hasMessageId_false (tbl : List TradeRow) (mid : String)
    (h : hasMessageId tbl mid = false) : mid ∉ tbl.map TradeRow.messageId := by
  intro hmem
  obtain ⟨t, ht, hEq⟩ := List.mem_map.mp hmem
  unfold hasMessageId at h
  rw [List.any_eq_false] at h
  exact h t ht (by simp [hEq])

theorem nodupIds_insertOrIgnoreTrade (tbl : List TradeRow) (r : TradeRow)
    (h : NodupIds tbl) : NodupIds (insertOrIgnoreTrade tbl r) := by
  unfold insertOrIgnoreTrade
  cases hm : hasMessageId tbl r.messageId with
  | true => simpa [hm] using h
  | false =>
    rw [if_neg (by simp [hm])]
    unfold NodupIds at h ⊢
    rw [List.map_append]
    simp only [List.map_cons, List.map_nil]
    rw [List.nodup_append]
    refine ⟨h, List.nodup_singleton _, fun x hx hmem => ?_⟩
    rw [List.mem_singleton] at hmem
    subst hmem
    exact not_mem_map_of_hasMessageId_false tbl r.messageId hm hx

theorem nodupIds_foldl_insertOrIgnoreTrade :
    ∀ (rows : List TradeRow) (tbl : List TradeRow),
      NodupIds tbl → NodupIds (rows.foldl insertOrIgnoreTrade tbl) := by
  intro rows
  induction rows with
  | nil => intro tbl h; exact h
  | cons r rest ih =>
    intro tbl h
    exact ih _ (nodupIds_insertOrIgnoreTrade tbl r h)

theorem nodupIds_historical (now : String) :
    ∀ (msgs : List Msg) (tbl : List TradeRow),
      NodupIds tbl → NodupIds (perform_historical_scan tbl msgs now) := by
  intro msgs
  induction msgs with
  | nil => intro tbl h; exact h
  | cons m rest ih =>
    intro tbl h
    have hstep : perform_historical_scan tbl (m :: rest) now =
        perform_historical_scan
          (if strContains m.content SEARCH_STRING then
            insertOrIgnoreTrade tbl (mkPendingRow m now)
          else tbl) rest now := rfl
    rw [hstep]
    by_cases hs : strContains m.content SEARCH_STRING = true
    · rw [if_pos hs]
      exact ih _ (nodupIds_insertOrIgnoreTrade _ _ h)
    · rw [if_neg hs]
      exact ih _ h

/-! ## Claim C1: at-most-once trade insertion -/

/-- C1: a message whose id already has a trade row inserts no second row
(the insert-or-ignore leaves the table unchanged, and a batch skips it),
and all three ingestion paths — historical backfill, incremental/batch
catch-up, live monitoring — preserve the invariant that no two `trades`
rows share a `message_id`. -/
theorem c1 (tbl : List TradeRow) (h : NodupIds tbl) (now : String) :
    (∀ r, hasMessageId tbl r.messageId = true → insertOrIgnoreTrade tbl r = tbl) ∧
    (∀ msgs, NodupIds (perform_historical_scan tbl msgs now)) ∧
    (∀ msgs, NodupIds (process_message_batch_fast tbl msgs now)) ∧
    (∀ m, NodupIds (on_message tbl m now)) ∧
    (∀ m, hasMessageId tbl (toString m.id) = true →
        process_message_batch_fast tbl [m] now = tbl) := by
  refine ⟨?_, ?_, ?_, ?_, ?_⟩
  · intro r hr
    unfold insertOrIgnoreTrade
    rw [if_pos hr]
  · intro msgs
    exact nodupIds_historical now msgs tbl h
  · intro msgs
    unfold process_message_batch_fast
    exact nodupIds_foldl_insertOrIgnoreTrade _ tbl h
  · intro m
    unfold on_message
    split
    · unfold process_message_batch_fast
      exact nodupIds_foldl_insertOrIgnoreTrade _ tbl h
    · exact h
  · intro m hm
    unfold process_message_batch_fast
    simp [hm]

/-- A matching message used to exercise the C1 invariant. -/
def m0 : Msg :=
  { id := 111, content := "Tradeable cards Found: Pikachu (x1)",
    accountId := some 1, accountName := some "acct", xmlPath := none,
    imageUrl := some "https://cdn/shot.png", screenshotThumbnailBlob := none,
    messageLink := none, cardsFoundText := some "Pikachu (x1)" }

theorem c1_witness :
    NodupIds (process_message_batch_fast [] [m0, m0] "t0") :=
  (c1 [] (by simp [NodupIds]) "t0").2.2.1 [m0, m0]

/-! ## Claim C5: startup recovery of Pending/Failed trades -/

theorem recoverTradeStep_fst (fe : String → Bool) (r : TradeRow) :
    (recoverTradeStep fe r).1 = r := by
  unfold recoverTradeStep
  split
  · split <;> rfl
  · rfl

theorem dictGet_image_path (r : TradeRow) :
    dictGet (tradeRowDict r) "image_path" = none := by
  simp [dictGet, tradeRowDict, List.find?]

/-- A Failed trade (`scan_status = 2`) left over from a prior run, with its
screenshot URL recorded — the concrete failing input for claim C5. -/
def failedTrade : TradeRow :=
  { messageId := "123456789", accountId := some 1, accountName := some "acct",
    xmlPath := some "DB_STORED",
    imageUrl := some "https://cdn.discordapp.com/shot.png",
    screenshotThumbnailBlob := none, messageLink := none,
    cardsFoundText := some "", processedAt := "2026-01-01 00:00:00",
    scanStatus := 2, scanResultsJson := some "[]" }

/-- C5 fails on the code: `recover_missing_cards` looks up
`trade_data.get('image_path')`, but a `SELECT * FROM trades` row has no
`image_path` column, so the lookup is always `None`, every selected
Pending/Failed row takes the "image not found" error branch, and the
recovery pass changes nothing — no row is re-processed and a Failed row
keeps `scan_status = 2` even when its screenshot is available. -/
theorem c5 :
    (∀ (fe : String → Bool) (db : List TradeRow),
        recoverPendingFailed fe db = db) ∧
    dictGet (tradeRowDict failedTrade) "image_path" = none ∧
    (failedTrade.scanStatus == 0 || failedTrade.scanStatus == 2) = true ∧
    recoverPendingFailed (fun _ => true) [failedTrade] = [failedTrade] ∧
    failedTrade.scanStatus = 2 := by
  have hmain : ∀ (fe : String → Bool) (db : List TradeRow),
      recoverPendingFailed fe db = db := by
    intro fe db
    unfold recoverPendingFailed
    have hrow : ∀ r : TradeRow,
        (if r.scanStatus == 0 || r.scanStatus == 2 then
          (recoverTradeStep fe r).1
        else r) = r := by
      intro r
      split
      · exact recoverTradeStep_fst fe r
      · rfl
    simp only [hrow, List.map_id']
  exact ⟨hmain, dictGet_image_path failedTrade, by decide,
    hmain (fun _ => true) [failedTrade], rfl⟩

theorem c9_witness :
    ((set_inventory_quantity [⟨1, 2, 3⟩] (some 1) (some 2) 0).1 =
        [(⟨1, 2, 3⟩ : InvRow)].filter (fun r => !invMatches 1 2 r)) ∧
    ((set_inventory_quantity [⟨1, 2, 3⟩] (some 3) (some 4) 5).1 =
        [⟨1, 2, 3⟩] ++ [⟨3, 4, 5⟩]) ∧
    (getQty (set_inventory_quantity [⟨1, 2, 3⟩] (some 1) (some 2) 7).1 1 2
        = some 7) :=
  ⟨((c9 [⟨1, 2, 3⟩] 1 2 0).1 (by decide)).1,
   (c9 [⟨1, 2, 3⟩] 3 4 5).2.1 (by decide) (by decide),
   (c9 [⟨1, 2, 3⟩] 1 2 7).2.2 (by decide) 3 (by decide)⟩

/-! ## Helper lemmas: the recognition slot loop -/

theorem recognizeSlots_mem (templates : List Template) (threshold : ℚ)
    (hashOf : Img → Box → Option (List Char)) (img : Img) (layout : Nat) :
    ∀ (boxes : List Box) (k : Nat) (r : RecognitionResult),
      r ∈ recognizeSlots templates threshold hashOf img layout
            (List.enumFrom k boxes) →
        threshold ≤ r.similarity ∧ k ≤ r.position := by
  intro boxes
  induction boxes with
  | nil => intro k r hr; simp [recognizeSlots] at hr
  | cons b bs ih =>
    intro k r hr
    have step : r ∈ recognizeSlots templates threshold hashOf img layout
        (List.enumFrom (k + 1) bs) →
        threshold ≤ r.similarity ∧ k ≤ r.position := by
      intro hmem
      obtain ⟨h1, h2⟩ := ih (k + 1) r hmem
      exact ⟨h1, by omega⟩
    simp only [List.enumFrom, recognizeSlots] at hr
    split at hr
    · exact step hr
    · split at hr
      · exact step hr
      · split at hr
        · exact step hr
        · split at hr
          · rcases List.mem_cons.mp hr with hEq | hmem
            · subst hEq
              exact ⟨by assumption, le_refl k⟩
            · exact step hmem
          · exact step hr

theorem recognizeSlots_pairwise (templates : List Template) (threshold : ℚ)
    (hashOf : Img → Box → Option (List Char)) (img : Img) (layout : Nat) :
    ∀ (boxes : List Box) (k : Nat),
      (recognizeSlots templates threshold hashOf img layout
          (List.enumFrom k boxes)).Pairwise
        (fun a b => a.position < b.position) := by
  intro boxes
  induction boxes with
  | nil => intro k; simp [recognizeSlots]
  | cons b bs ih =>
    intro k
    simp only [List.enumFrom, recognizeSlots]
    split
    · exact ih (k + 1)
    · split
      · exact ih (k + 1)
      · split
        · exact ih (k + 1)
        · split
          · refine List.Pairwise.cons ?_ (ih (k + 1))
            intro r hr
            have hpos := (recognizeSlots_mem templates threshold hashOf img
              layout bs (k + 1) r hr).2
            show k < r.position
            omega
          · exact ih (k + 1)

/-! ## Claim C6: fingerprint length mismatch -/

/-- A query fingerprint shorter than the corpus fingerprints. -/
def shortQuery : List Char := ['1', '1']

/-- A corpus template with a 10-character fingerprint. -/
def mismatchTemplate : Template :=
  ⟨1, "Template", "001", "S1", none, List.replicate 10 '0'⟩

/-- C6 fails on the code: on a length mismatch `hamming_distance` returns
`len(hash1)` (the code comment says "Return max distance", but that is the
*query* length while the caller divides by the *template* length), so a
query of length 2 against a 10-character corpus scores
`100 − (2/10)·100 = 80` and `_find_best_match` returns that fabricated
match — which clears the default 60 threshold — instead of "no match". -/
theorem c6_mismatch_eval :
    shortQuery.length ≠ mismatchTemplate.hash.length ∧
    hamming_distance shortQuery mismatchTemplate.hash = shortQuery.length ∧
    _find_best_match [mismatchTemplate] shortQuery =
      some (mismatchTemplate, 80) ∧
    (60 : ℚ) ≤ 80 := by
  refine ⟨by decide, by decide, ?_, by norm_num⟩
  norm_num [_find_best_match, hamming_distance, shortQuery, mismatchTemplate,
    round2]

/-! ## Claims C7 and C8: recognition orchestration and layout safety -/

/-- The corpus template of the 6-slot scenario. -/
def cardA : Template := ⟨7, "Pikachu ex", "001", "A1", none, List.replicate 12 '0'⟩

/-- A crop hash identical to `cardA`'s fingerprint (similarity 100). -/
def hitHash : List Char := List.replicate 12 '0'

/-- A crop hash complementary to `cardA`'s fingerprint (similarity 0). -/
def missHash : List Char := List.replicate 12 '1'

/-- A decoded image with no pixels: both indicator regions are empty, numpy
means are NaN, both `is_color_in_range` tests are `False`, so each row
resolves to 3 cards and the detected layout is 6. -/
def emptyImg : Img := []

/-- Crops for the 6-slot scenario: slots 2 and 5 (the middle boxes of each
row) hash to `missHash` (below threshold), the other four to `hitHash`. -/
def sixSlotHashes : Img → Box → Option (List Char) := fun _ b =>
  if b = (87, 16, 151, 54) ∨ b = (87, 133, 151, 171) then some missHash
  else some hitHash

/-- Same scenario, but slot 2's crop/hash *fails* (raises or returns
`None`) while slot 5 stays below threshold. -/
def sixSlotHashesCropFail : Img → Box → Option (List Char) := fun _ b =>
  if b = (87, 16, 151, 54) then none
  else if b = (87, 133, 151, 171) then some missHash
  else some hitHash

/-- The accepted result of the scenario at a given slot position. -/
def resAt (p : Nat) : RecognitionResult := ⟨p, 7, "Pikachu ex", "A1", 100, 6⟩

/-- C7: every result kept by `recognize_from_image` has similarity ≥ the
threshold and the slot positions come out in strictly increasing slot
order; in the concrete 6-slot screenshot with 4 above-threshold and 2
below-threshold crops exactly 4 results survive, positions preserved, and
replacing one bad slot's hash by an outright crop failure removes only
that slot without aborting the others. -/
theorem c7 :
    (∀ (templates : List Template) (threshold : ℚ)
        (hashOf : Img → Box → Option (List Char)) (img : Img)
        (results : List RecognitionResult),
        recognize_from_image templates threshold hashOf (some img) = .ok results →
          (∀ r ∈ results, threshold ≤ r.similarity) ∧
          results.Pairwise (fun a b => a.position < b.position)) ∧
    recognize_from_image [cardA] 60 sixSlotHashes (some emptyImg) =
      .ok [resAt 1, resAt 3, resAt 4, resAt 6] ∧
    recognize_from_image [cardA] 60 sixSlotHashesCropFail (some emptyImg) =
      .ok [resAt 1, resAt 3, resAt 4, resAt 6] := by
  refine ⟨?_, ?_, ?_⟩
  · intro templates threshold hashOf img results hok
    simp only [recognize_from_image] at hok
    cases hl : LAYOUT_CROP_BOXES (_get_layout_logic img) with
    | none => rw [hl] at hok; exact absurd hok (by simp)
    | some boxes =>
      rw [hl] at hok
      have hres : recognizeSlots templates threshold hashOf img
          (_get_layout_logic img) (boxes.enumFrom 1) = results := by
        simpa using hok
      subst hres
      exact ⟨fun r hr =>
          (recognizeSlots_mem templates threshold hashOf img
            (_get_layout_logic img) boxes 1 r hr).1,
        recognizeSlots_pairwise templates threshold hashOf img
          (_get_layout_logic img) boxes 1⟩
  · have hlen : (List.filter (fun p : Char × Char => p.1 != p.2)
        (List.replicate 12 ('1', '0'))).length = 12 := by decide
    norm_num [recognize_from_image, recognizeSlots, _get_layout_logic,
      roiPixels, meanColor, is_color_in_range, TOP_ROW_CHECK_BOX,
      BOTTOM_ROW_CHECK_BOX, LAYOUT_CROP_BOXES, List.enumFrom, emptyImg,
      sixSlotHashes, cardA, hitHash, missHash, resAt, _find_best_match,
      hamming_distance, round2, hlen]
  · have hlen : (List.filter (fun p : Char × Char => p.1 != p.2)
        (List.replicate 12 ('1', '0'))).length = 12 := by decide
    norm_num [recognize_from_image, recognizeSlots, _get_layout_logic,
      roiPixels, meanColor, is_color_in_range, TOP_ROW_CHECK_BOX,
      BOTTOM_ROW_CHECK_BOX, LAYOUT_CROP_BOXES, List.enumFrom, emptyImg,
      sixSlotHashesCropFail, cardA, hitHash, missHash, resAt,
      _find_best_match, hamming_distance, round2, hlen]

theorem c7_witness :
    (∀ r ∈ [resAt 1, resAt 3, resAt 4, resAt 6], (60 : ℚ) ≤ r.similarity) ∧
    ([resAt 1, resAt 3, resAt 4, resAt 6]).Pairwise
      (fun a b => a.position < b.position) :=
  c7.1 [cardA] 60 sixSlotHashes emptyImg _ c7.2.1

/-- C8: layout detection is total — `None` exactly when the image does not
decode, otherwise a per-row 2-or-3 split summing to a card count in
{4, 5, 6} — and an undetermined layout makes `recognize_from_image` return
the explicit unknown-layout error with zero results instead of crashing. -/
theorem c8 (templates : List Template) (threshold : ℚ)
    (hashOf : Img → Box → Option (List Char)) (input : Option Img) :
    (input = none → get_layout_from_image input = none ∧
        recognize_from_image templates threshold hashOf input =
          .error "Could not determine valid layout") ∧
    (∀ img, input = some img →
        ∃ top bottom, (top = 2 ∨ top = 3) ∧ (bottom = 2 ∨ bottom = 3) ∧
          _get_layout_logic img = top + bottom ∧
          get_layout_from_image input = some (top + bottom) ∧
          (top + bottom = 4 ∨ top + bottom = 5 ∨ top + bottom = 6)) := by
  constructor
  · rintro rfl
    exact ⟨rfl, rfl⟩
  · rintro img rfl
    have hsplit : ∃ top bottom, (top = 2 ∨ top = 3) ∧ (bottom = 2 ∨ bottom = 3) ∧
        _get_layout_logic img = top + bottom := by
      unfold _get_layout_logic
      by_cases ht : is_color_in_range (meanColor (roiPixels img TOP_ROW_CHECK_BOX))
          TARGET_GRAY_BGR COLOR_TOLERANCE = true <;>
        by_cases hb : is_color_in_range (meanColor (roiPixels img BOTTOM_ROW_CHECK_BOX))
            TARGET_GRAY_BGR COLOR_TOLERANCE = true
      · exact ⟨2, 2, Or.inl rfl, Or.inl rfl, by simp [ht, hb]⟩
      · exact ⟨2, 3, Or.inl rfl, Or.inr rfl, by simp [ht, hb]⟩
      · exact ⟨3, 2, Or.inr rfl, Or.inl rfl, by simp [ht, hb]⟩
      · exact ⟨3, 3, Or.inr rfl, Or.inr rfl, by simp [ht, hb]⟩
    obtain ⟨top, bottom, h2, h3, hl⟩ := hsplit
    refine ⟨top, bottom, h2, h3, hl, by simp [get_layout_from_image, hl], ?_⟩
    rcases h2 with rfl | rfl <;> rcases h3 with rfl | rfl <;> norm_num

theorem c8_witness :
    (get_layout_from_image (none : Option Img) = none ∧
      recognize_from_image [] 60 (fun _ _ => none) (none : Option Img) =
        .error "Could not determine valid layout") ∧
    ∃ top bottom, (top = 2 ∨ top = 3) ∧ (bottom = 2 ∨ bottom = 3) ∧
      _get_layout_logic emptyImg = top + bottom ∧
      get_layout_from_image (some emptyImg) = some (top + bottom) ∧
      (top + bottom = 4 ∨ top + bottom = 5 ∨ top + bottom = 6) :=
  ⟨(c8 [] 60 (fun _ _ => none) none).1 rfl,
   (c8 [] 60 (fun _ _ => none) (some emptyImg)).2 emptyImg rfl⟩

end TCGP
